import Mathlib

/-!
Shallow embedding of two C fixtures from a debugger test workspace:
`src/testWorkspace/web/dwarf/fibonacci.c` and
`src/testWorkspace/web/dwarf/c-with-struct.c`.

C `int` values are modelled as mathematical integers (`Int`): signed
overflow is undefined behaviour in C and the specification places it out
of scope, so the exact-integer model covers all defined executions.
-/

namespace Fibonacci

/-- Number of iterations executed by `for (int i = 1; i < n; ++i)`:
`max (n - 1) 0`. -/
def fibIters (n : Int) : Nat := (n - 1).toNat

/-- Iterated loop body of `fib` on the state `(a, b, c)`.  The body
`a = b; b = c; c = a + b;` sends `(a, b, c)` to `(b, c, b + c)`: the old
value of `a` is overwritten before it is ever read. -/
def fibLoop : Nat → Int × Int × Int → Int × Int × Int
  | 0, s => s
  | m + 1, (_, b, c) => fibLoop m (b, c, b + c)

/-- `int fib(int n)` from fibonacci.c, with the junk initial value of the
declared-but-not-assigned variable `a` made explicit as `a0`;
`int a, b = 0, c = 1;` then the loop, then `return c;`. -/
def fibFrom (a0 : Int) (n : Int) : Int :=
  (fibLoop (fibIters n) (a0, 0, 1)).2.2

/-- `int fib(int n)` from fibonacci.c (the choice of `a0` is immaterial,
see `fibFrom_indep`). -/
def fib (n : Int) : Int := fibFrom 0 n

/-- The two lines written to standard output by `main` in fibonacci.c:
`printf("9th fib: %d\n", fib(9))` and `printf("5th fib: %d\n", fib(5))`. -/
def mainOutput : List String :=
  ["9th fib: " ++ toString (fib 9), "5th fib: " ++ toString (fib 5)]

/-- Return value of `main` in fibonacci.c. -/
def mainRet : Int := 0

/-- Small-step view of the `for` loop of `fib`: the full local state
`(i, a, b, c)` of one iteration. -/
structure LoopState where
  i : Int
  a : Int
  b : Int
  c : Int
  deriving Repr, DecidableEq

/-- One execution of the loop body together with the `++i` increment. -/
def loopStep (s : LoopState) : LoopState :=
  { i := s.i + 1, a := s.b, b := s.c, c := s.b + s.c }

/-- Loop state on entry: `i = 1`, `b = 0`, `c = 1`, `a` holds the junk
value `a0`. -/
def loopInit (a0 : Int) : LoopState :=
  { i := 1, a := a0, b := 0, c := 1 }

/-- Sequence defined by the specification's words: the 0-indexed variant
of Fibonacci with `f(1) = 0`, `f(2) = 1`, `f(k) = f(k-1) + f(k-2)`
(`specF 0` is outside the spec's indexing and set to `0`). -/
def specF : Nat → Int
  | 0 => 0
  | 1 => 0
  | 2 => 1
  | k + 3 => specF (k + 1) + specF (k + 2)

end Fibonacci

namespace CWithStruct

/-- `struct data_t` from c-with-struct.c: a 12-byte `char` buffer and two
`int` fields.  The buffer is a list of byte values; `id_len12` in the
theorems records that it holds exactly 12 bytes. -/
structure data_t where
  id : List Nat
  x : Int
  y : Int
  deriving Repr, DecidableEq

/-- C initialization of `char buf[size]` from a string literal whose
character codes are `s`: the literal's characters followed by the
implicit NUL terminator, cut off at `size`, with any remaining bytes
zero-filled. -/
def cCharArrayInit (size : Nat) (s : List Nat) : List Nat :=
  ((s ++ [0]).take size) ++ List.replicate (size - (s.length + 1)) 0

/-- `int process(void *data)` from c-with-struct.c: the pointed-to memory
is modelled as a map from addresses to records; the body is `return 0;`
and reads neither argument. -/
def process (_mem : Nat → data_t) (_data : Nat) : Int := 0

/-- The record built by `_start`:
`data_t data = { .id = "Hello world", .x = 12, .y = 34 };`. -/
def start_data : data_t :=
  { id := cCharArrayInit 12 (("Hello world").toList.map Char.toNat)
    x := 12
    y := 34 }

/-- `int _start()` from c-with-struct.c: builds `data` on the stack at
some address (taken to be 0) and returns `process(&data)`. -/
def _start : Int := process (fun _ => start_data) 0

end CWithStruct

namespace Fibonacci

/-- Running the loop body from a state whose accumulators hold consecutive
Fibonacci numbers advances them through the sequence; the first component
of the state (the variable `a`) never influences the result. -/
lemma fibLoop_fib : ∀ (m k : Nat) (a : Int),
    (fibLoop m (a, (Nat.fib k : Int), (Nat.fib (k + 1) : Int))).2 =
      ((Nat.fib (k + m) : Int), (Nat.fib (k + m + 1) : Int)) := by
  intro m
  induction m with
  | zero => intro k a; simp [fibLoop]
  | succ m ih =>
    intro k a
    have hsum : (Nat.fib k : Int) + (Nat.fib (k + 1) : Int) =
        (Nat.fib (k + 1 + 1) : Int) := by
      push_cast [Nat.fib_add_two]
      ring
    have hstep : fibLoop (m + 1) (a, (Nat.fib k : Int), (Nat.fib (k + 1) : Int)) =
        fibLoop m ((Nat.fib k : Int), (Nat.fib (k + 1) : Int),
          (Nat.fib (k + 1 + 1) : Int)) := by
      rw [fibLoop, hsum]
    rw [hstep, ih (k + 1) (Nat.fib k : Int)]
    have h1 : k + 1 + m = k + (m + 1) := by omega
    rw [h1]

/-- `fibFrom` computes the `(fibIters n + 1)`-st standard Fibonacci
number, independently of the junk value `a0`. -/
lemma fibFrom_eq (a0 n : Int) :
    fibFrom a0 n = (Nat.fib (fibIters n + 1) : Int) := by
  have h := fibLoop_fib (fibIters n) 0 a0
  simp only [Nat.fib_zero, Nat.fib_one, Nat.cast_zero, Nat.cast_one,
    Nat.zero_add] at h
  unfold fibFrom
  rw [h]

/-- The result of `fib` does not depend on the junk initial value of the
local variable `a`. -/
lemma fibFrom_indep (a0 a0' n : Int) : fibFrom a0 n = fibFrom a0' n := by
  rw [fibFrom_eq, fibFrom_eq]

/-- For inputs `n ≥ 1`, `fib n` is the `n`-th standard Fibonacci number
(1-indexed: `F 1 = F 2 = 1`, so `fib n = Nat.fib n`). -/
lemma fib_eq_natFib (n : Int) (h : 1 ≤ n) : fib n = (Nat.fib n.toNat : Int) := by
  unfold fib
  rw [fibFrom_eq]
  have h1 : fibIters n + 1 = n.toNat := by
    unfold fibIters
    omega
  rw [h1]

/-- The spec's 0-indexed sequence is the standard Fibonacci sequence
shifted by one: `specF (k + 1) = Nat.fib k`. -/
lemma specF_eq : ∀ k : Nat, specF (k + 1) = (Nat.fib k : Int) := by
  have key : ∀ k : Nat, specF (k + 1) = (Nat.fib k : Int) ∧
      specF (k + 2) = (Nat.fib (k + 1) : Int) := by
    intro k
    induction k with
    | zero => constructor <;> rfl
    | succ k ih =>
      refine ⟨ih.2, ?_⟩
      show specF (k + 3) = (Nat.fib (k + 2) : Int)
      rw [specF, ih.1, ih.2]
      push_cast [Nat.fib_add_two]
      ring
  exact fun k => (key k).1

/-- Iterating the small-step loop relation agrees with `fibLoop` on the
accumulators and advances the counter `i` by one per step. -/
lemma loopStep_iterate : ∀ (k : Nat) (s : LoopState),
    loopStep^[k] s =
      ⟨s.i + k, (fibLoop k (s.a, s.b, s.c)).1,
        (fibLoop k (s.a, s.b, s.c)).2.1, (fibLoop k (s.a, s.b, s.c)).2.2⟩ := by
  intro k
  induction k with
  | zero => intro s; simp [fibLoop]
  | succ k ih =>
    intro s
    rw [Function.iterate_succ_apply, ih]
    have hbody : loopStep s = ⟨s.i + 1, s.b, s.c, s.b + s.c⟩ := rfl
    rw [hbody]
    have hloop : fibLoop (k + 1) (s.a, s.b, s.c) =
        fibLoop k (s.b, s.c, s.b + s.c) := rfl
    rw [hloop]
    have hi : s.i + 1 + (k : Int) = s.i + ((k : Nat) + 1 : Nat) := by
      push_cast
      ring
    rw [hi]

end Fibonacci

section Claims
open Fibonacci CWithStruct

/-- C1, counterexample: the claim states `fib 9 = 21` and `fib 5 = 3`;
the code returns 34 and 5 (the loop runs `n - 1` times, so `fib` is the
1-indexed standard Fibonacci sequence, not the spec's 0-indexed one). -/
theorem fib_main_values_claim_false : fib 9 ≠ 21 ∧ fib 5 ≠ 3 := by decide

/-- C1, amended: invoked with n=9 the computation yields 34 and with n=5
it yields 5 (1-indexed standard Fibonacci, F(1)=F(2)=1), so the entry
point prints 34 and 5. -/
theorem fib_main_values :
    fib 9 = 34 ∧ fib 5 = 5 ∧ mainOutput = ["9th fib: 34", "5th fib: 5"] := by
  decide

/-- C2, counterexample: the claim states that `fib n` is the n-th term of
the sequence f(1)=0, f(2)=1, so in particular `fib 1 = 0`; the code
returns 1 at n=1 (the loop body never runs and `c = 1` is returned). -/
theorem fib_spec_sequence_claim_false :
    specF 1 = 0 ∧ fib 1 = 1 ∧ fib 1 ≠ specF 1 := by decide

/-- C2, amended: for every integer n ≥ 1, `fib n` is the (n+1)-st term of
the sequence f(1)=0, f(2)=1, f(k)=f(k-1)+f(k-2); in particular
fib(1)=1 and fib(2)=1, one position ahead of the claimed indexing. -/
theorem fib_eq_specF_succ (n : Int) (h : 1 ≤ n) : fib n = specF (n.toNat + 1) := by
  rw [fib_eq_natFib n h, specF_eq]

/-- Witness for C2's amended theorem at n = 9: `fib 9 = specF 10` (= 34). -/
theorem fib_eq_specF_succ_witness :
    (1 : Int) ≤ 9 ∧ fib 9 = specF 10 ∧ fib 9 = 34 :=
  ⟨by norm_num, fib_eq_specF_succ 9 (by norm_num), by decide⟩

/-- C3: `process` returns 0 for every address and every memory contents;
its result does not depend on the pointed-to record's fields. -/
theorem process_const (mem mem' : Nat → data_t) (addr addr' : Nat) :
    process mem addr = 0 ∧ process mem addr = process mem' addr' :=
  ⟨rfl, rfl⟩

/-- Witness for C3 at concrete memories and addresses. -/
theorem process_const_witness :
    process (fun _ => start_data) 0 = 0 ∧
      process (fun _ => start_data) 0 =
        process (fun _ => { start_data with x := 99 }) 5 :=
  process_const (fun _ => start_data) (fun _ => { start_data with x := 99 }) 0 5

/-- C4: for every k ≥ 3 the iterative implementation's outputs satisfy
the Fibonacci recurrence fib(k) = fib(k-1) + fib(k-2). -/
theorem fib_recurrence (k : Int) (h : 3 ≤ k) : fib k = fib (k - 1) + fib (k - 2) := by
  rw [fib_eq_natFib k (by omega), fib_eq_natFib (k - 1) (by omega),
    fib_eq_natFib (k - 2) (by omega)]
  obtain ⟨j, hj2, hj1, hj0⟩ : ∃ j, k.toNat = j + 2 ∧ (k - 1).toNat = j + 1 ∧
      (k - 2).toNat = j := ⟨(k - 2).toNat, by omega, by omega, rfl⟩
  rw [hj2, hj1, hj0]
  push_cast [Nat.fib_add_two]
  ring

/-- Witness for C4 at k = 9: `fib 9 = fib 8 + fib 7` (34 = 21 + 13). -/
theorem fib_recurrence_witness :
    (3 : Int) ≤ 9 ∧ fib 9 = fib 8 + fib 7 ∧ fib 8 = 21 ∧ fib 7 = 13 :=
  ⟨by norm_num, fib_recurrence 9 (by norm_num), by decide, by decide⟩

/-- C5: the 12-byte id buffer, initialized from the 11-character literal
plus its implicit NUL, is exactly filled: all 12 bytes are defined, the
terminator is the last byte, and no character is truncated. -/
theorem id_buffer_exact_fit :
    ("Hello world").length = 11 ∧
      start_data.id.length = 12 ∧
      start_data.id.getLast? = some 0 ∧
      start_data.id = (("Hello world").toList.map Char.toNat) ++ [0] := by
  decide

/-- C6: a complete run of the entry point writes exactly two lines, of
the forms `9th fib: <value>` and `5th fib: <value>` with the decimal
renderings of the corresponding `fib` results, and nothing else. -/
theorem main_output_lines :
    mainOutput.length = 2 ∧
      mainOutput =
        ["9th fib: " ++ toString (fib 9), "5th fib: " ++ toString (fib 5)] ∧
      mainOutput = ["9th fib: 34", "5th fib: 5"] ∧ mainRet = 0 := by
  decide

/-- C7: `fib` has no error conditions: it is a total function on all
integers, with no validation and no failure branch; in particular it
returns normally (with value 1) at n = 0 and at negative n. -/
theorem fib_total_no_errors :
    (∀ n : Int, ∃ v : Int, fib n = v) ∧ fib 0 = 1 ∧ fib (-7) = 1 :=
  ⟨fun n => ⟨fib n, rfl⟩, by decide, by decide⟩

/-- C8: the loop of `fib` terminates on every integer input n (whatever
junk value the local `a` starts with): after finitely many small steps
the guard `i < n` fails, and the accumulator `c` then holds `fib n`. -/
theorem fib_loop_terminates (n a0 : Int) :
    ∃ k : Nat, ¬ ((loopStep^[k] (loopInit a0)).i < n) ∧
      (loopStep^[k] (loopInit a0)).c = fib n := by
  refine ⟨fibIters n, ?_, ?_⟩
  · rw [loopStep_iterate]
    simp only [loopInit]
    unfold fibIters
    omega
  · rw [loopStep_iterate]
    simp only [loopInit]
    show fibFrom a0 n = fib n
    exact fibFrom_indep a0 0 n

/-- Witness for C8 at n = 9 with junk value 0. -/
theorem fib_loop_terminates_witness :
    ∃ k : Nat, ¬ ((loopStep^[k] (loopInit 0)).i < 9) ∧
      (loopStep^[k] (loopInit 0)).c = fib 9 :=
  fib_loop_terminates 9 0

/-- C9: both procedures are deterministic: runs of `fib` on the same n
agree (even across different junk contents of the local `a`), and runs of
`process` agree on every state. -/
theorem deterministic_runs :
    (∀ n a0 a0' : Int, fibFrom a0 n = fibFrom a0' n) ∧
      (∀ (mem mem' : Nat → data_t) (addr addr' : Nat),
        process mem addr = process mem' addr') :=
  ⟨fun n a0 a0' => fibFrom_indep a0 a0' n, fun _ _ _ _ => rfl⟩

/-- C10: for every n ≤ 1 the loop body never executes and `fib` returns
1, and the junk (read-before-write) value of `a` never reaches the
result on that path. -/
theorem fib_small_input (n a0 : Int) (h : n ≤ 1) :
    fibIters n = 0 ∧ fibFrom a0 n = 1 := by
  have h0 : fibIters n = 0 := by
    unfold fibIters
    omega
  refine ⟨h0, ?_⟩
  unfold fibFrom
  rw [h0]
  simp [fibLoop]

/-- Witness for C10 at n = 0 with junk value 42. -/
theorem fib_small_input_witness :
    (0 : Int) ≤ 1 ∧ fibIters 0 = 0 ∧ fibFrom 42 0 = 1 := by
  have h := fib_small_input 0 42 (by norm_num)
  exact ⟨by norm_num, h.1, h.2⟩

end Claims
